import Mathlib

/-!
Verification of the analytical free-fall helper: a kinematics mapper
(`Object`) producing quadratic coefficients, and a quadratic solver
(`SecondOrderEq`) computing discriminant, roots, time of ground contact and
position at contact.  Numpy float entries are modelled by `RVal`: an exact
real number or one of the IEEE special values `inf`, `ninf`, `nan` (zero is
modelled unsigned, as the positive zero arising in this code).
-/

noncomputable section

namespace Engine3D

/-- An IEEE-754-style extended value: a finite real, `±∞`, or `nan`. -/
inductive RVal where
  | fin : ℝ → RVal
  | inf : RVal
  | ninf : RVal
  | nan : RVal

namespace RVal

/-- Unary minus. -/
def neg : RVal → RVal
  | fin x => fin (-x)
  | inf => ninf
  | ninf => inf
  | nan => nan

/-- IEEE addition (nan absorbing, `∞ + (−∞) = nan`). -/
def add : RVal → RVal → RVal
  | nan, _ => nan
  | fin _, nan => nan
  | inf, nan => nan
  | ninf, nan => nan
  | fin x, fin y => fin (x + y)
  | fin _, inf => inf
  | fin _, ninf => ninf
  | inf, fin _ => inf
  | inf, inf => inf
  | inf, ninf => nan
  | ninf, fin _ => ninf
  | ninf, inf => nan
  | ninf, ninf => ninf

/-- IEEE subtraction. -/
def sub (u v : RVal) : RVal := u.add v.neg

/-- IEEE multiplication (`0 * ∞ = nan`). -/
def mul : RVal → RVal → RVal
  | nan, _ => nan
  | fin _, nan => nan
  | inf, nan => nan
  | ninf, nan => nan
  | fin x, fin y => fin (x * y)
  | fin x, inf => if 0 < x then inf else if x < 0 then ninf else nan
  | fin x, ninf => if 0 < x then ninf else if x < 0 then inf else nan
  | inf, fin y => if 0 < y then inf else if y < 0 then ninf else nan
  | ninf, fin y => if 0 < y then ninf else if y < 0 then inf else nan
  | inf, inf => inf
  | inf, ninf => ninf
  | ninf, inf => ninf
  | ninf, ninf => inf

/-- IEEE division with unsigned (positive) zero: `x / 0` is `±∞` by the sign
of `x`, and `0 / 0 = nan`; `±∞ / ±∞ = nan`. -/
def div : RVal → RVal → RVal
  | nan, _ => nan
  | fin _, nan => nan
  | inf, nan => nan
  | ninf, nan => nan
  | fin x, fin y =>
      if y = 0 then (if 0 < x then inf else if x < 0 then ninf else nan)
      else fin (x / y)
  | fin _, inf => fin 0
  | fin _, ninf => fin 0
  | inf, fin y => if y < 0 then ninf else inf
  | ninf, fin y => if y < 0 then inf else ninf
  | inf, inf => nan
  | inf, ninf => nan
  | ninf, inf => nan
  | ninf, ninf => nan

/-- `np.sqrt`: `nan` on negative inputs (the suppressed-warning path). -/
def sqrt : RVal → RVal
  | fin x => if x < 0 then nan else fin (Real.sqrt x)
  | inf => inf
  | ninf => nan
  | nan => nan

/-- Squaring, `v ** 2`. -/
def pow2 : RVal → RVal
  | fin x => fin (x ^ 2)
  | inf => inf
  | ninf => inf
  | nan => nan

/-- The comparison `v < 0` under IEEE semantics: false on `nan`. -/
def isNeg : RVal → Bool
  | fin x => decide (x < 0)
  | inf => false
  | ninf => true
  | nan => false

/-- A non-finite value: `nan` or an infinity. -/
def isSpecial (v : RVal) : Prop := v = nan ∨ v = inf ∨ v = ninf

/-- Indexing a numpy scalar, `r[2]` on a 0-dimensional value: raises
`TypeError`, modelled as `none`. -/
def index (_v : RVal) (_i : ℕ) : Option RVal := none

end RVal

/-- A 3-component numpy array of float entries. -/
structure Vec3 where
  x : RVal
  y : RVal
  z : RVal

namespace Vec3

/-- Elementwise addition. -/
def add (u v : Vec3) : Vec3 := ⟨u.x.add v.x, u.y.add v.y, u.z.add v.z⟩

/-- Elementwise subtraction. -/
def sub (u v : Vec3) : Vec3 := ⟨u.x.sub v.x, u.y.sub v.y, u.z.sub v.z⟩

/-- Elementwise (Hadamard) multiplication. -/
def mul (u v : Vec3) : Vec3 := ⟨u.x.mul v.x, u.y.mul v.y, u.z.mul v.z⟩

/-- Elementwise negation. -/
def neg (v : Vec3) : Vec3 := ⟨v.x.neg, v.y.neg, v.z.neg⟩

/-- Elementwise `np.sqrt`. -/
def sqrt (v : Vec3) : Vec3 := ⟨v.x.sqrt, v.y.sqrt, v.z.sqrt⟩

/-- Elementwise squaring, `v ** 2`. -/
def pow2 (v : Vec3) : Vec3 := ⟨v.x.pow2, v.y.pow2, v.z.pow2⟩

/-- Broadcast `scalar * array`. -/
def smul (s : RVal) (v : Vec3) : Vec3 := ⟨s.mul v.x, s.mul v.y, s.mul v.z⟩

/-- Broadcast `array * scalar`. -/
def mulS (v : Vec3) (s : RVal) : Vec3 := ⟨v.x.mul s, v.y.mul s, v.z.mul s⟩

/-- Elementwise division. -/
def div (u v : Vec3) : Vec3 := ⟨u.x.div v.x, u.y.div v.y, u.z.div v.z⟩

end Vec3

/-- A constructor argument accepted by `np.array`: a numpy array already, or
a plain Python sequence of three numbers. -/
inductive ArrLike where
  | npArr : Vec3 → ArrLike
  | pyList : Vec3 → ArrLike

/-- `np.array`: converts either input form to a numpy array. -/
def np_array : ArrLike → Vec3
  | ArrLike.npArr v => v
  | ArrLike.pyList v => v

/-- The `g` argument of `Object.__init__` is stored without any conversion,
so it may be any Python value: a numeric 3-array (as the default
`np.array([0, 0, -9.81])` is), or an object supporting neither
multiplication by a float nor indexing, for which `0.5 * g` raises. -/
inductive Grav where
  | npArr : Vec3 → Grav
  | nonNumeric : Grav

/-- The physical object of `computation_utilities.py`: initial position,
velocity, collision position and gravitational acceleration. -/
structure Object where
  pos : Vec3
  vel : Vec3
  collision_condition : Vec3
  g : Grav

/-- `Object.__init__`: `np.array` is applied to `pos`, `vel` and
`collision_condition`; `g` is stored exactly as passed. -/
def Object.init (pos vel collision_condition : ArrLike) (g : Grav) : Object :=
  { pos := np_array pos
    vel := np_array vel
    collision_condition := np_array collision_condition
    g := g }

/-- The default gravity argument, `np.array([0, 0, -9.81])`. -/
def default_g : Grav := Grav.npArr ⟨RVal.fin 0, RVal.fin 0, RVal.fin (-9.81)⟩

/-- `get_a`: `0.5 * self.g`.  Raises (`none`) when `g` does not support
multiplication by a float. -/
def Object.get_a (o : Object) : Option Vec3 :=
  match o.g with
  | Grav.npArr v => some (Vec3.smul (RVal.fin 0.5) v)
  | Grav.nonNumeric => none

/-- `get_b`: `self.vel`. -/
def Object.get_b (o : Object) : Vec3 := o.vel

/-- `get_c`: `self.pos - self.collision_condition`. -/
def Object.get_c (o : Object) : Vec3 := Vec3.sub o.pos o.collision_condition

/-- `get_eq`: the coefficient triple `(a, b, c)` as full vectors. -/
def Object.get_eq (o : Object) : Option (Vec3 × Vec3 × Vec3) :=
  (o.get_a).map (fun a => (a, o.get_b, o.get_c))

/-- `get_eq_z`: the vertical (index 2) components of the coefficients. -/
def Object.get_eq_z (o : Object) : Option (RVal × RVal × RVal) :=
  (o.get_a).map (fun a => (a.z, o.get_b.z, o.get_c.z))

/-- `SecondOrderEq` instantiated with vector (3-array) coefficients. -/
structure SecondOrderEq where
  a : Vec3
  b : Vec3
  c : Vec3

namespace SecondOrderEq

/-- `discriminant`: `self.b**2 - 4 * self.a * self.c`, elementwise. -/
def discriminant (e : SecondOrderEq) : Vec3 :=
  Vec3.sub (Vec3.pow2 e.b) (Vec3.mul (Vec3.smul (RVal.fin 4) e.a) e.c)

/-- `roots`: the pair
`((-b - sqrt(disc)) / (2a), (-b + sqrt(disc)) / (2a))`, elementwise. -/
def roots (e : SecondOrderEq) : Vec3 × Vec3 :=
  (Vec3.div (Vec3.sub (Vec3.neg e.b) (Vec3.sqrt e.discriminant))
     (Vec3.smul (RVal.fin 2) e.a),
   Vec3.div (Vec3.add (Vec3.neg e.b) (Vec3.sqrt e.discriminant))
     (Vec3.smul (RVal.fin 2) e.a))

/-- `get_time_contact_ground`: take the vertical (index 2) component of each
root; return `r2` if `r1 < 0`, else `r1`. -/
def get_time_contact_ground (e : SecondOrderEq) : RVal :=
  if RVal.isNeg (e.roots).1.z then (e.roots).2.z else (e.roots).1.z

/-- `get_distance_at_contact_ground`:
`self.a * t**2 + self.b * t + self.c` at `t = get_time_contact_ground()`. -/
def get_distance_at_contact_ground (e : SecondOrderEq) : Vec3 :=
  Vec3.add
    (Vec3.add (Vec3.mulS e.a (RVal.pow2 e.get_time_contact_ground))
      (Vec3.mulS e.b e.get_time_contact_ground))
    e.c

end SecondOrderEq

/-- `SecondOrderEq` instantiated with scalar coefficients, as produced by
`Object.get_eq_z`. -/
structure SecondOrderEqS where
  a : RVal
  b : RVal
  c : RVal

namespace SecondOrderEqS

/-- `discriminant`: `self.b**2 - 4 * self.a * self.c` on scalars. -/
def discriminant (e : SecondOrderEqS) : RVal :=
  RVal.sub (RVal.pow2 e.b) (RVal.mul (RVal.mul (RVal.fin 4) e.a) e.c)

/-- `roots` on scalars. -/
def roots (e : SecondOrderEqS) : RVal × RVal :=
  (RVal.div (RVal.sub (RVal.neg e.b) (RVal.sqrt e.discriminant))
     (RVal.mul (RVal.fin 2) e.a),
   RVal.div (RVal.add (RVal.neg e.b) (RVal.sqrt e.discriminant))
     (RVal.mul (RVal.fin 2) e.a))

/-- `get_time_contact_ground` on scalar coefficients: the assignments
`r1 = r1[2]` and `r2 = r2[2]` index a numpy scalar, which raises. -/
def get_time_contact_ground (e : SecondOrderEqS) : Option RVal := do
  let r1 ← (e.roots).1.index 2
  let r2 ← (e.roots).2.index 2
  if RVal.isNeg r1 then return r2 else return r1

end SecondOrderEqS

/-! Concrete instances used to instantiate the general statements below. -/

/-- An object dropped from height 10 onto the boundary height 1, with
gravity `(0, 0, -2)`. -/
def exO : Object :=
  ⟨⟨RVal.fin 0, RVal.fin 0, RVal.fin 10⟩, ⟨RVal.fin 0, RVal.fin 0, RVal.fin 0⟩,
   ⟨RVal.fin 0, RVal.fin 0, RVal.fin 1⟩,
   Grav.npArr ⟨RVal.fin 0, RVal.fin 0, RVal.fin (-2)⟩⟩

/-- The coefficient `a` derived from `exO`. -/
def exA : Vec3 := Vec3.smul (RVal.fin 0.5) ⟨RVal.fin 0, RVal.fin 0, RVal.fin (-2)⟩

/-- The coefficient `b` derived from `exO`. -/
def exB : Vec3 := ⟨RVal.fin 0, RVal.fin 0, RVal.fin 0⟩

/-- The coefficient `c` derived from `exO`. -/
def exC : Vec3 :=
  Vec3.sub ⟨RVal.fin 0, RVal.fin 0, RVal.fin 10⟩ ⟨RVal.fin 0, RVal.fin 0, RVal.fin 1⟩

/-- A solver whose vertical quadratic is `-t² + 3t`, with roots 0 and 3. -/
def exNegA : SecondOrderEq :=
  ⟨⟨RVal.fin 0, RVal.fin 0, RVal.fin (-1)⟩, ⟨RVal.fin 0, RVal.fin 0, RVal.fin 3⟩,
   ⟨RVal.fin 0, RVal.fin 0, RVal.fin 0⟩⟩

/-- A solver whose vertical quadratic is `t² - 4`, with roots ±2. -/
def exPosA : SecondOrderEq :=
  ⟨⟨RVal.fin 0, RVal.fin 0, RVal.fin 1⟩, ⟨RVal.fin 0, RVal.fin 0, RVal.fin 0⟩,
   ⟨RVal.fin 0, RVal.fin 0, RVal.fin (-4)⟩⟩

/-- A solver whose vertical quadratic is `t² - 3t + 2`, with roots 1 and 2. -/
def exSel : SecondOrderEq :=
  ⟨⟨RVal.fin 0, RVal.fin 0, RVal.fin 1⟩, ⟨RVal.fin 0, RVal.fin 0, RVal.fin (-3)⟩,
   ⟨RVal.fin 0, RVal.fin 0, RVal.fin 2⟩⟩

/-- A solver with zero vertical leading coefficient. -/
def exZeroA : SecondOrderEq :=
  ⟨⟨RVal.fin 0, RVal.fin 0, RVal.fin 0⟩, ⟨RVal.fin 0, RVal.fin 0, RVal.fin 1⟩,
   ⟨RVal.fin 0, RVal.fin 0, RVal.fin 1⟩⟩

/-- A solver with coefficients `(1, 1, 1)`, `(0, 0, 0)`, `(-1, -1, -1)`. -/
def exC8 : SecondOrderEq :=
  ⟨⟨RVal.fin 1, RVal.fin 1, RVal.fin 1⟩, ⟨RVal.fin 0, RVal.fin 0, RVal.fin 0⟩,
   ⟨RVal.fin (-1), RVal.fin (-1), RVal.fin (-1)⟩⟩

/-- An object with distinct finite components on every axis. -/
def exO9 : Object :=
  ⟨⟨RVal.fin 1, RVal.fin 2, RVal.fin 3⟩, ⟨RVal.fin 0, RVal.fin 0, RVal.fin 0⟩,
   ⟨RVal.fin 1, RVal.fin 1, RVal.fin 1⟩,
   Grav.npArr ⟨RVal.fin 2, RVal.fin 4, RVal.fin (-6)⟩⟩

/-- An object dropped from height 10 with the default gravity argument. -/
def exO4 : Object :=
  ⟨⟨RVal.fin 0, RVal.fin 0, RVal.fin 10⟩, ⟨RVal.fin 0, RVal.fin 0, RVal.fin 0⟩,
   ⟨RVal.fin 0, RVal.fin 0, RVal.fin 0⟩, default_g⟩

/-! Basic computation lemmas for `RVal`. -/

namespace RVal

@[simp] theorem neg_fin (x : ℝ) : neg (fin x) = fin (-x) := rfl

@[simp] theorem neg_nan : neg nan = nan := rfl

@[simp] theorem add_fin (x y : ℝ) : add (fin x) (fin y) = fin (x + y) := rfl

@[simp] theorem add_fin_nan (x : ℝ) : add (fin x) nan = nan := rfl

@[simp] theorem add_nan (v : RVal) : add nan v = nan := by cases v <;> rfl

@[simp] theorem sub_fin (x y : ℝ) : sub (fin x) (fin y) = fin (x - y) := by
  show fin (x + -y) = fin (x - y)
  rw [← sub_eq_add_neg]

@[simp] theorem sub_fin_nan (x : ℝ) : sub (fin x) nan = nan := rfl

@[simp] theorem mul_fin (x y : ℝ) : mul (fin x) (fin y) = fin (x * y) := rfl

@[simp] theorem mul_fin_nan (x : ℝ) : mul (fin x) nan = nan := rfl

@[simp] theorem pow2_fin (x : ℝ) : pow2 (fin x) = fin (x ^ 2) := rfl

@[simp] theorem pow2_nan : pow2 nan = nan := rfl

@[simp] theorem pow2_inf : pow2 inf = inf := rfl

@[simp] theorem pow2_ninf : pow2 ninf = inf := rfl

theorem div_fin {y : ℝ} (h : y ≠ 0) (x : ℝ) :
    div (fin x) (fin y) = fin (x / y) := by
  simp [div, h]

@[simp] theorem div_nan (v : RVal) : div nan v = nan := by cases v <;> rfl

theorem div_fin_zero (x : ℝ) :
    div (fin x) (fin 0) =
      if 0 < x then inf else if x < 0 then ninf else nan := by
  simp [div]

theorem sqrt_fin {x : ℝ} (h : 0 ≤ x) : sqrt (fin x) = fin (Real.sqrt x) := by
  simp [sqrt, not_lt.mpr h]

theorem sqrt_fin_neg {x : ℝ} (h : x < 0) : sqrt (fin x) = nan := by
  simp [sqrt, h]

@[simp] theorem isNeg_fin (x : ℝ) : isNeg (fin x) = decide (x < 0) := rfl

@[simp] theorem isNeg_nan : isNeg nan = false := rfl

theorem isSpecial_nan : isSpecial nan := Or.inl rfl

theorem isSpecial_inf : isSpecial inf := Or.inr (Or.inl rfl)

theorem isSpecial_ninf : isSpecial ninf := Or.inr (Or.inr rfl)

theorem isSpecial_div_fin_zero (x : ℝ) : isSpecial (div (fin x) (fin 0)) := by
  rw [div_fin_zero]
  split_ifs
  · exact isSpecial_inf
  · exact isSpecial_ninf
  · exact isSpecial_nan

theorem pow2_isSpecial {v : RVal} (h : isSpecial v) : isSpecial (pow2 v) := by
  rcases h with h | h | h <;> subst h
  · exact isSpecial_nan
  · exact isSpecial_inf
  · exact isSpecial_inf

theorem mul_fin_zero_special {v : RVal} (h : isSpecial v) :
    mul (fin 0) v = nan := by
  rcases h with h | h | h <;> subst h <;> simp [mul]

end RVal

/-! Reduction lemmas tying the solver to real arithmetic on the vertical
axis, and helper facts about real quadratics. -/

namespace SecondOrderEq

/-- Vertical components of the two roots, written out. -/
theorem roots_z_def (e : SecondOrderEq) :
    (e.roots).1.z =
      RVal.div (RVal.sub (RVal.neg e.b.z) (RVal.sqrt e.discriminant.z))
        (RVal.mul (RVal.fin 2) e.a.z) ∧
    (e.roots).2.z =
      RVal.div (RVal.add (RVal.neg e.b.z) (RVal.sqrt e.discriminant.z))
        (RVal.mul (RVal.fin 2) e.a.z) :=
  ⟨rfl, rfl⟩

/-- Vertical component of the discriminant, for finite vertical
coefficients. -/
theorem discriminant_z (e : SecondOrderEq) {A B C : ℝ}
    (ha : e.a.z = RVal.fin A) (hb : e.b.z = RVal.fin B)
    (hc : e.c.z = RVal.fin C) :
    e.discriminant.z = RVal.fin (B ^ 2 - 4 * A * C) := by
  simp [discriminant, Vec3.sub, Vec3.pow2, Vec3.mul, Vec3.smul, ha, hb, hc]

/-- Vertical components of the two roots, for finite vertical coefficients,
a nonzero vertical leading coefficient and a nonnegative vertical
discriminant. -/
theorem roots_z (e : SecondOrderEq) {A B C : ℝ}
    (ha : e.a.z = RVal.fin A) (hb : e.b.z = RVal.fin B)
    (hc : e.c.z = RVal.fin C) (hA : A ≠ 0) (hd : 0 ≤ B ^ 2 - 4 * A * C) :
    (e.roots).1.z = RVal.fin ((-B - Real.sqrt (B ^ 2 - 4 * A * C)) / (2 * A)) ∧
    (e.roots).2.z = RVal.fin ((-B + Real.sqrt (B ^ 2 - 4 * A * C)) / (2 * A)) := by
  have hdz := discriminant_z e ha hb hc
  have h2A : (2 : ℝ) * A ≠ 0 := mul_ne_zero two_ne_zero hA
  constructor <;>
    simp [roots, Vec3.div, Vec3.sub, Vec3.add, Vec3.neg, Vec3.sqrt, Vec3.smul,
      ha, hb, hc, hdz, RVal.sqrt_fin hd, RVal.div_fin h2A]

/-- The returned time is the first root when that root is nonnegative. -/
theorem get_time_eq_r1 (e : SecondOrderEq) {A B C : ℝ}
    (ha : e.a.z = RVal.fin A) (hb : e.b.z = RVal.fin B)
    (hc : e.c.z = RVal.fin C) (hA : A ≠ 0) (hd : 0 ≤ B ^ 2 - 4 * A * C)
    (hr : 0 ≤ (-B - Real.sqrt (B ^ 2 - 4 * A * C)) / (2 * A)) :
    e.get_time_contact_ground =
      RVal.fin ((-B - Real.sqrt (B ^ 2 - 4 * A * C)) / (2 * A)) := by
  obtain ⟨h1, h2⟩ := roots_z e ha hb hc hA hd
  simp [get_time_contact_ground, h1, h2, not_lt.mpr hr]

/-- The returned time is the second root when the first root is negative. -/
theorem get_time_eq_r2 (e : SecondOrderEq) {A B C : ℝ}
    (ha : e.a.z = RVal.fin A) (hb : e.b.z = RVal.fin B)
    (hc : e.c.z = RVal.fin C) (hA : A ≠ 0) (hd : 0 ≤ B ^ 2 - 4 * A * C)
    (hr : (-B - Real.sqrt (B ^ 2 - 4 * A * C)) / (2 * A) < 0) :
    e.get_time_contact_ground =
      RVal.fin ((-B + Real.sqrt (B ^ 2 - 4 * A * C)) / (2 * A)) := by
  obtain ⟨h1, h2⟩ := roots_z e ha hb hc hA hd
  simp [get_time_contact_ground, h1, h2, hr]

/-- Vertical component of the evaluated quadratic at a finite returned
time. -/
theorem distance_z (e : SecondOrderEq) {A B C T : ℝ}
    (ha : e.a.z = RVal.fin A) (hb : e.b.z = RVal.fin B)
    (hc : e.c.z = RVal.fin C) (ht : e.get_time_contact_ground = RVal.fin T) :
    e.get_distance_at_contact_ground.z =
      RVal.fin (A * T ^ 2 + B * T + C) := by
  simp [get_distance_at_contact_ground, Vec3.add, Vec3.mulS, ha, hb, hc, ht]

end SecondOrderEq

/-- Scalar-mode discriminant for finite coefficients. -/
theorem SecondOrderEqS.discriminant_fin (A B C : ℝ) :
    (SecondOrderEqS.mk (RVal.fin A) (RVal.fin B) (RVal.fin C)).discriminant =
      RVal.fin (B ^ 2 - 4 * A * C) := by
  simp [SecondOrderEqS.discriminant]

/-- Scalar-mode roots for finite coefficients, nonzero leading coefficient
and nonnegative discriminant. -/
theorem SecondOrderEqS.roots_fin (A B C : ℝ) (hA : A ≠ 0)
    (hd : 0 ≤ B ^ 2 - 4 * A * C) :
    (SecondOrderEqS.mk (RVal.fin A) (RVal.fin B) (RVal.fin C)).roots =
      (RVal.fin ((-B - Real.sqrt (B ^ 2 - 4 * A * C)) / (2 * A)),
       RVal.fin ((-B + Real.sqrt (B ^ 2 - 4 * A * C)) / (2 * A))) := by
  have h2A : (2 : ℝ) * A ≠ 0 := mul_ne_zero two_ne_zero hA
  simp [SecondOrderEqS.roots, SecondOrderEqS.discriminant,
    RVal.sqrt_fin hd, RVal.div_fin h2A]

/-- Real roots of a real quadratic with nonnegative discriminant. -/
theorem quad_root_iff {A B C : ℝ} (hA : A ≠ 0) (hd : 0 ≤ B ^ 2 - 4 * A * C)
    (t : ℝ) :
    A * t ^ 2 + B * t + C = 0 ↔
      t = (-B - Real.sqrt (B ^ 2 - 4 * A * C)) / (2 * A) ∨
      t = (-B + Real.sqrt (B ^ 2 - 4 * A * C)) / (2 * A) := by
  have hs : discrim A B C =
      Real.sqrt (B ^ 2 - 4 * A * C) * Real.sqrt (B ^ 2 - 4 * A * C) := by
    rw [discrim, Real.mul_self_sqrt hd]
  have h2 := quadratic_eq_zero_iff hA hs t
  rw [show A * (t * t) = A * t ^ 2 by ring] at h2
  rw [h2]
  tauto

/-- With a positive leading coefficient, the minus-branch root is the
smaller one. -/
theorem quad_r1_le_r2 {A B C : ℝ} (hA : 0 < A) :
    (-B - Real.sqrt (B ^ 2 - 4 * A * C)) / (2 * A) ≤
      (-B + Real.sqrt (B ^ 2 - 4 * A * C)) / (2 * A) := by
  have hs := Real.sqrt_nonneg (B ^ 2 - 4 * A * C)
  have h2A : (0 : ℝ) < 2 * A := by linarith
  exact (div_le_div_iff_of_pos_right h2A).mpr (by linarith)

/-- Square root of 4. -/
theorem sqrt_four : Real.sqrt 4 = 2 := by
  rw [show (4 : ℝ) = 2 ^ 2 by norm_num]
  exact Real.sqrt_sq (by norm_num)

/-- Square root of 9. -/
theorem sqrt_nine : Real.sqrt 9 = 3 := by
  rw [show (9 : ℝ) = 3 ^ 2 by norm_num]
  exact Real.sqrt_sq (by norm_num)

/-- Square root of 36. -/
theorem sqrt_thirtysix : Real.sqrt 36 = 6 := by
  rw [show (36 : ℝ) = 6 ^ 2 by norm_num]
  exact Real.sqrt_sq (by norm_num)

/-! Degenerate-configuration lemmas (zero leading coefficient or negative
discriminant on the vertical axis). -/

namespace SecondOrderEq

/-- If both vertical root components are special, so is the returned time. -/
theorem time_special (e : SecondOrderEq)
    (h1 : RVal.isSpecial (e.roots).1.z) (h2 : RVal.isSpecial (e.roots).2.z) :
    RVal.isSpecial e.get_time_contact_ground := by
  unfold get_time_contact_ground
  cases hn : RVal.isNeg (e.roots).1.z <;> simp [hn]
  · exact h1
  · exact h2

/-- With finite vertical coefficients and negative vertical discriminant,
both vertical root components, the time and the vertical evaluated distance
are `nan`. -/
theorem nan_z_of_disc_neg (e : SecondOrderEq) {A B C : ℝ}
    (ha : e.a.z = RVal.fin A) (hb : e.b.z = RVal.fin B)
    (hc : e.c.z = RVal.fin C) (hneg : B ^ 2 - 4 * A * C < 0) :
    (e.roots).1.z = RVal.nan ∧ (e.roots).2.z = RVal.nan ∧
    e.get_time_contact_ground = RVal.nan ∧
    e.get_distance_at_contact_ground.z = RVal.nan := by
  have hdz := discriminant_z e ha hb hc
  have hsq : RVal.sqrt e.discriminant.z = RVal.nan := by
    rw [hdz]; exact RVal.sqrt_fin_neg hneg
  have h1 : (e.roots).1.z = RVal.nan := by
    rw [(roots_z_def e).1, hb, hsq]; simp
  have h2 : (e.roots).2.z = RVal.nan := by
    rw [(roots_z_def e).2, hb, hsq]; simp
  have ht : e.get_time_contact_ground = RVal.nan := by
    simp [get_time_contact_ground, h1, h2]
  refine ⟨h1, h2, ht, ?_⟩
  simp [get_distance_at_contact_ground, Vec3.add, Vec3.mulS, ha, hb, hc, ht]

/-- With a zero vertical leading coefficient and nonnegative vertical
discriminant, both vertical root components are division-by-zero specials. -/
theorem special_z_of_a_zero (e : SecondOrderEq) {B C : ℝ}
    (ha : e.a.z = RVal.fin 0) (hb : e.b.z = RVal.fin B)
    (hc : e.c.z = RVal.fin C) (hd : 0 ≤ B ^ 2 - 4 * 0 * C) :
    RVal.isSpecial (e.roots).1.z ∧ RVal.isSpecial (e.roots).2.z := by
  have hdz := discriminant_z e ha hb hc
  have hsq : RVal.sqrt e.discriminant.z =
      RVal.fin (Real.sqrt (B ^ 2 - 4 * 0 * C)) := by
    rw [hdz]; exact RVal.sqrt_fin hd
  have hden : RVal.mul (RVal.fin 2) e.a.z = RVal.fin 0 := by
    rw [ha]; simp
  have h1 : (e.roots).1.z =
      RVal.div (RVal.fin (-B - Real.sqrt (B ^ 2 - 4 * 0 * C))) (RVal.fin 0) := by
    rw [(roots_z_def e).1, hb, hsq, hden]; simp
  have h2 : (e.roots).2.z =
      RVal.div (RVal.fin (-B + Real.sqrt (B ^ 2 - 4 * 0 * C))) (RVal.fin 0) := by
    rw [(roots_z_def e).2, hb, hsq, hden]; simp
  constructor
  · rw [h1]; exact RVal.isSpecial_div_fin_zero _
  · rw [h2]; exact RVal.isSpecial_div_fin_zero _

/-- With a zero vertical leading coefficient and a special returned time,
the vertical evaluated distance is `nan`. -/
theorem distance_z_nan_of_a_zero (e : SecondOrderEq) {B C : ℝ}
    (ha : e.a.z = RVal.fin 0) (hb : e.b.z = RVal.fin B)
    (hc : e.c.z = RVal.fin C)
    (ht : RVal.isSpecial e.get_time_contact_ground) :
    e.get_distance_at_contact_ground.z = RVal.nan := by
  rcases ht with h | h | h <;>
    simp [get_distance_at_contact_ground, Vec3.add, Vec3.mulS, ha, hb, hc, h,
      RVal.mul_fin_zero_special RVal.isSpecial_inf,
      RVal.mul_fin_zero_special RVal.isSpecial_ninf]

end SecondOrderEq

/-! Claim theorems. -/

/-- C8: for every coefficient triple of finite entries with nonzero leading
coefficients and nonnegative discriminants, `discriminant()` equals
`b² − 4ac` and `roots()` returns `((−b − √disc)/(2a), (−b + √disc)/(2a))`,
computed component-wise. -/
theorem c8_discriminant_and_roots_componentwise
    (a1 a2 a3 b1 b2 b3 c1 c2 c3 : ℝ)
    (h1 : a1 ≠ 0) (h2 : a2 ≠ 0) (h3 : a3 ≠ 0)
    (hd1 : 0 ≤ b1 ^ 2 - 4 * a1 * c1) (hd2 : 0 ≤ b2 ^ 2 - 4 * a2 * c2)
    (hd3 : 0 ≤ b3 ^ 2 - 4 * a3 * c3) :
    (SecondOrderEq.mk ⟨RVal.fin a1, RVal.fin a2, RVal.fin a3⟩
        ⟨RVal.fin b1, RVal.fin b2, RVal.fin b3⟩
        ⟨RVal.fin c1, RVal.fin c2, RVal.fin c3⟩).discriminant =
      ⟨RVal.fin (b1 ^ 2 - 4 * a1 * c1), RVal.fin (b2 ^ 2 - 4 * a2 * c2),
       RVal.fin (b3 ^ 2 - 4 * a3 * c3)⟩ ∧
    (SecondOrderEq.mk ⟨RVal.fin a1, RVal.fin a2, RVal.fin a3⟩
        ⟨RVal.fin b1, RVal.fin b2, RVal.fin b3⟩
        ⟨RVal.fin c1, RVal.fin c2, RVal.fin c3⟩).roots =
      (⟨RVal.fin ((-b1 - Real.sqrt (b1 ^ 2 - 4 * a1 * c1)) / (2 * a1)),
        RVal.fin ((-b2 - Real.sqrt (b2 ^ 2 - 4 * a2 * c2)) / (2 * a2)),
        RVal.fin ((-b3 - Real.sqrt (b3 ^ 2 - 4 * a3 * c3)) / (2 * a3))⟩,
       ⟨RVal.fin ((-b1 + Real.sqrt (b1 ^ 2 - 4 * a1 * c1)) / (2 * a1)),
        RVal.fin ((-b2 + Real.sqrt (b2 ^ 2 - 4 * a2 * c2)) / (2 * a2)),
        RVal.fin ((-b3 + Real.sqrt (b3 ^ 2 - 4 * a3 * c3)) / (2 * a3))⟩) := by
  constructor
  · simp [SecondOrderEq.discriminant, Vec3.sub, Vec3.pow2, Vec3.mul, Vec3.smul]
  · simp [SecondOrderEq.roots, SecondOrderEq.discriminant, Vec3.div, Vec3.sub,
      Vec3.add, Vec3.neg, Vec3.sqrt, Vec3.pow2, Vec3.mul, Vec3.smul,
      RVal.sqrt_fin hd1, RVal.sqrt_fin hd2, RVal.sqrt_fin hd3,
      RVal.div_fin (mul_ne_zero two_ne_zero h1),
      RVal.div_fin (mul_ne_zero two_ne_zero h2),
      RVal.div_fin (mul_ne_zero two_ne_zero h3)]

/-- C8 witness: concrete instance with coefficients `(1, 0, -1)` on each
axis. -/
theorem c8_witness :
    ((1 : ℝ) ≠ 0) ∧ (0 ≤ (0 : ℝ) ^ 2 - 4 * 1 * (-1)) ∧
    exC8.discriminant = ⟨RVal.fin 4, RVal.fin 4, RVal.fin 4⟩ := by
  refine ⟨by norm_num, by norm_num, ?_⟩
  have h := (c8_discriminant_and_roots_componentwise 1 1 1 0 0 0 (-1) (-1) (-1)
    (by norm_num) (by norm_num) (by norm_num)
    (by norm_num) (by norm_num) (by norm_num)).1
  rw [show exC8 = SecondOrderEq.mk ⟨RVal.fin 1, RVal.fin 1, RVal.fin 1⟩
      ⟨RVal.fin 0, RVal.fin 0, RVal.fin 0⟩
      ⟨RVal.fin (-1), RVal.fin (-1), RVal.fin (-1)⟩ from rfl, h]
  norm_num

/-- C9: for every object with a numeric gravity array and finite position,
collision-boundary and gravity components, `get_a` is `0.5 * gravity`,
`get_b` is the velocity, `get_c` is `position - collision_condition`, and
`get_eq` returns exactly this triple. -/
theorem c9_coefficient_derivation (o : Object) (gv : Vec3)
    (g1 g2 g3 p1 p2 p3 q1 q2 q3 : ℝ)
    (hg : o.g = Grav.npArr gv)
    (hg1 : gv.x = RVal.fin g1) (hg2 : gv.y = RVal.fin g2)
    (hg3 : gv.z = RVal.fin g3)
    (hp1 : o.pos.x = RVal.fin p1) (hp2 : o.pos.y = RVal.fin p2)
    (hp3 : o.pos.z = RVal.fin p3)
    (hq1 : o.collision_condition.x = RVal.fin q1)
    (hq2 : o.collision_condition.y = RVal.fin q2)
    (hq3 : o.collision_condition.z = RVal.fin q3) :
    o.get_a = some ⟨RVal.fin (0.5 * g1), RVal.fin (0.5 * g2),
      RVal.fin (0.5 * g3)⟩ ∧
    o.get_b = o.vel ∧
    o.get_c = ⟨RVal.fin (p1 - q1), RVal.fin (p2 - q2), RVal.fin (p3 - q3)⟩ ∧
    o.get_eq = some (⟨RVal.fin (0.5 * g1), RVal.fin (0.5 * g2),
      RVal.fin (0.5 * g3)⟩, o.vel,
      ⟨RVal.fin (p1 - q1), RVal.fin (p2 - q2), RVal.fin (p3 - q3)⟩) := by
  have hA : o.get_a = some ⟨RVal.fin (0.5 * g1), RVal.fin (0.5 * g2),
      RVal.fin (0.5 * g3)⟩ := by
    simp [Object.get_a, hg, Vec3.smul, hg1, hg2, hg3]
  have hC : o.get_c = ⟨RVal.fin (p1 - q1), RVal.fin (p2 - q2),
      RVal.fin (p3 - q3)⟩ := by
    simp [Object.get_c, Vec3.sub, hp1, hp2, hp3, hq1, hq2, hq3]
  exact ⟨hA, rfl, hC, by simp [Object.get_eq, Object.get_b, hA, hC]⟩

/-- C9 witness: concrete instance with gravity `(2, 4, -6)`, position
`(1, 2, 3)` and collision boundary `(1, 1, 1)`. -/
theorem c9_witness :
    exO9.get_a = some ⟨RVal.fin 1, RVal.fin 2, RVal.fin (-3)⟩ ∧
    exO9.get_c = ⟨RVal.fin 0, RVal.fin 1, RVal.fin 2⟩ := by
  have h := c9_coefficient_derivation exO9 ⟨RVal.fin 2, RVal.fin 4, RVal.fin (-6)⟩
    2 4 (-6) 1 2 3 1 1 1 rfl rfl rfl rfl rfl rfl rfl rfl rfl rfl
  constructor
  · rw [h.1]; norm_num
  · rw [h.2.2.1]; norm_num

/-- C10: the constructor coerces `pos`, `vel` and `collision_condition`
through `np.array` but stores `g` exactly as passed; with the default
gravity every accessor is defined and `get_a = (0, 0, -4.905)`, while a
non-numeric gravity makes `get_a` and `get_eq_z` raise even though
construction succeeds. -/
theorem c10_gravity_stored_unconverted (p v cc : ArrLike) (g : Grav) :
    (Object.init p v cc g).pos = np_array p ∧
    (Object.init p v cc g).vel = np_array v ∧
    (Object.init p v cc g).collision_condition = np_array cc ∧
    (Object.init p v cc g).g = g ∧
    (Object.init p v cc default_g).get_a =
      some ⟨RVal.fin 0, RVal.fin 0, RVal.fin (-4.905)⟩ ∧
    (Object.init p v cc default_g).get_eq_z =
      some (RVal.fin (-4.905), (np_array v).z,
        RVal.sub (np_array p).z (np_array cc).z) ∧
    (Object.init p v cc Grav.nonNumeric).get_a = none ∧
    (Object.init p v cc Grav.nonNumeric).get_eq_z = none := by
  refine ⟨rfl, rfl, rfl, rfl, ?_, ?_, rfl, rfl⟩
  · simp [Object.init, Object.get_a, default_g, Vec3.smul]
    norm_num
  · simp [Object.init, Object.get_eq_z, Object.get_a, Object.get_b,
      Object.get_c, default_g, Vec3.smul, Vec3.sub]
    norm_num

/-- C4 counterexample: the spec's scalar pipeline (vertical coefficients from
`get_eq_z` fed to the solver) produces a well-defined scalar triple, but
`get_time_contact_ground` on it raises (returns `none`) rather than a
scalar time. -/
theorem c4_counterexample :
    exO4.get_eq_z = some (RVal.fin (-4.905), RVal.fin 0, RVal.fin 10) ∧
    (SecondOrderEqS.mk (RVal.fin (-4.905)) (RVal.fin 0)
        (RVal.fin 10)).get_time_contact_ground = none := by
  constructor
  · simp [exO4, Object.get_eq_z, Object.get_a, Object.get_b, Object.get_c,
      default_g, Vec3.smul, Vec3.sub]
    norm_num
  · rfl

/-- C4 (amended): on scalar coefficients `discriminant()` works, but
`get_time_contact_ground()` always raises, because it indexes element 2 of
a scalar root. -/
theorem c4_amended_scalar_time_raises (A B C : ℝ) :
    (SecondOrderEqS.mk (RVal.fin A) (RVal.fin B)
        (RVal.fin C)).get_time_contact_ground = none ∧
    (SecondOrderEqS.mk (RVal.fin A) (RVal.fin B) (RVal.fin C)).discriminant =
      RVal.fin (B ^ 2 - 4 * A * C) :=
  ⟨rfl, SecondOrderEqS.discriminant_fin A B C⟩

/-- C3 counterexample: with `a = -1, b = 0, c = 1` both roots are real, yet
`roots()` returns `(1, -1)` with the first root strictly greater than the
second. -/
theorem c3_counterexample :
    (SecondOrderEqS.mk (RVal.fin (-1)) (RVal.fin 0) (RVal.fin 1)).roots =
      (RVal.fin 1, RVal.fin (-1)) ∧ ¬ ((1 : ℝ) ≤ -1) := by
  constructor
  · have h := SecondOrderEqS.roots_fin (-1) 0 1 (by norm_num) (by norm_num)
    rw [h, show ((0 : ℝ) ^ 2 - 4 * (-1) * 1) = 4 by norm_num, sqrt_four]
    norm_num
  · norm_num

/-- C3 (amended): `roots()` returns `r1 ≤ r2` whenever both roots are real
and the leading coefficient is positive; for a negative leading coefficient
the order is reversed. -/
theorem c3_amended_roots_ordered (A B C : ℝ) (hA : 0 < A)
    (hd : 0 ≤ B ^ 2 - 4 * A * C) :
    ∃ x y : ℝ,
      (SecondOrderEqS.mk (RVal.fin A) (RVal.fin B) (RVal.fin C)).roots =
        (RVal.fin x, RVal.fin y) ∧ x ≤ y :=
  ⟨_, _, SecondOrderEqS.roots_fin A B C (ne_of_gt hA) hd, quad_r1_le_r2 hA⟩

/-- C3 witness: concrete instance with `a = 1, b = 0, c = 0`. -/
theorem c3_witness :
    ((0 : ℝ) < 1) ∧ (0 ≤ (0 : ℝ) ^ 2 - 4 * 1 * 0) ∧
    (∃ x y : ℝ,
      (SecondOrderEqS.mk (RVal.fin 1) (RVal.fin 0) (RVal.fin 0)).roots =
        (RVal.fin x, RVal.fin y) ∧ x ≤ y) :=
  ⟨by norm_num, by norm_num,
    c3_amended_roots_ordered 1 0 0 (by norm_num) (by norm_num)⟩

/-- C7: for every vector coefficient triple whose first root has a finite
vertical component `x`, `get_time_contact_ground()` returns the vertical
component of `r2` when `x < 0` and the vertical component of `r1`
otherwise. -/
theorem c7_root_selection_policy (e : SecondOrderEq) (x : ℝ)
    (hx : (e.roots).1.z = RVal.fin x) :
    (x < 0 → e.get_time_contact_ground = (e.roots).2.z) ∧
    (¬ x < 0 → e.get_time_contact_ground = (e.roots).1.z) := by
  constructor <;> intro h <;>
    simp [SecondOrderEq.get_time_contact_ground, hx, h]

/-- C7 witness: concrete instance whose first vertical root is 1. -/
theorem c7_witness :
    ((exSel.roots).1.z = RVal.fin 1) ∧
    ((1 : ℝ) < 0 → exSel.get_time_contact_ground = (exSel.roots).2.z) ∧
    (¬ (1 : ℝ) < 0 → exSel.get_time_contact_ground = (exSel.roots).1.z) := by
  have hx : (exSel.roots).1.z = RVal.fin 1 := by
    have h := (SecondOrderEq.roots_z exSel rfl rfl rfl (by norm_num)
      (by norm_num)).1
    rw [h, show ((-3 : ℝ)) ^ 2 - 4 * 1 * 2 = 1 by norm_num, Real.sqrt_one]
    norm_num
  exact ⟨hx, c7_root_selection_policy exSel 1 hx⟩

/-- C5: for every triple with finite vertical coefficients whose vertical
configuration is mathematically invalid (negative discriminant or zero
leading coefficient), `discriminant()`, `roots()`,
`get_time_contact_ground()` and `get_distance_at_contact_ground()` return
(no exception): the discriminant stays finite and the affected vertical
components are `nan` or infinite. -/
theorem c5_degenerate_inputs_degrade_gracefully (e : SecondOrderEq)
    (A B C : ℝ) (ha : e.a.z = RVal.fin A) (hb : e.b.z = RVal.fin B)
    (hc : e.c.z = RVal.fin C) (hbad : B ^ 2 - 4 * A * C < 0 ∨ A = 0) :
    e.discriminant.z = RVal.fin (B ^ 2 - 4 * A * C) ∧
    RVal.isSpecial (e.roots).1.z ∧ RVal.isSpecial (e.roots).2.z ∧
    RVal.isSpecial e.get_time_contact_ground ∧
    RVal.isSpecial e.get_distance_at_contact_ground.z := by
  have hdz := SecondOrderEq.discriminant_z e ha hb hc
  rcases hbad with hneg | hzero
  · obtain ⟨h1, h2, ht, hdist⟩ := SecondOrderEq.nan_z_of_disc_neg e ha hb hc hneg
    exact ⟨hdz, by rw [h1]; exact RVal.isSpecial_nan,
      by rw [h2]; exact RVal.isSpecial_nan,
      by rw [ht]; exact RVal.isSpecial_nan,
      by rw [hdist]; exact RVal.isSpecial_nan⟩
  · subst hzero
    by_cases hneg : B ^ 2 - 4 * 0 * C < 0
    · obtain ⟨h1, h2, ht, hdist⟩ :=
        SecondOrderEq.nan_z_of_disc_neg e ha hb hc hneg
      exact ⟨hdz, by rw [h1]; exact RVal.isSpecial_nan,
        by rw [h2]; exact RVal.isSpecial_nan,
        by rw [ht]; exact RVal.isSpecial_nan,
        by rw [hdist]; exact RVal.isSpecial_nan⟩
    · have hd : 0 ≤ B ^ 2 - 4 * 0 * C := not_lt.mp hneg
      obtain ⟨h1, h2⟩ := SecondOrderEq.special_z_of_a_zero e ha hb hc hd
      have ht := SecondOrderEq.time_special e h1 h2
      have hdist := SecondOrderEq.distance_z_nan_of_a_zero e ha hb hc ht
      exact ⟨hdz, h1, h2, ht, by rw [hdist]; exact RVal.isSpecial_nan⟩

/-- C5 witness: concrete instance with vertical coefficients `(0, 1, 1)`. -/
theorem c5_witness :
    ((1 : ℝ) ^ 2 - 4 * 0 * 1 < 0 ∨ (0 : ℝ) = 0) ∧
    (exZeroA.discriminant.z = RVal.fin ((1 : ℝ) ^ 2 - 4 * 0 * 1) ∧
     RVal.isSpecial (exZeroA.roots).1.z ∧
     RVal.isSpecial (exZeroA.roots).2.z ∧
     RVal.isSpecial exZeroA.get_time_contact_ground ∧
     RVal.isSpecial exZeroA.get_distance_at_contact_ground.z) :=
  ⟨Or.inr rfl,
    c5_degenerate_inputs_degrade_gracefully exZeroA 0 1 1 rfl rfl rfl
      (Or.inr rfl)⟩

/-- C2 counterexample: for the vertical quadratic `-t² + 3t`, the value 0 is
a nonnegative real root, yet `get_time_contact_ground()` returns 3, which
is not the earliest nonnegative root. -/
theorem c2_counterexample :
    exNegA.get_time_contact_ground = RVal.fin 3 ∧
    ((-1 : ℝ) * 0 ^ 2 + 3 * 0 + 0 = 0 ∧ (0 : ℝ) ≤ 0) ∧ ¬ ((3 : ℝ) ≤ 0) := by
  refine ⟨?_, ⟨by norm_num, le_refl 0⟩, by norm_num⟩
  have hr : 0 ≤ (-(3 : ℝ) - Real.sqrt ((3 : ℝ) ^ 2 - 4 * (-1) * 0)) /
      (2 * (-1)) := by
    rw [show ((3 : ℝ) ^ 2 - 4 * (-1) * 0) = 9 by norm_num, sqrt_nine]
    norm_num
  have ht := SecondOrderEq.get_time_eq_r1 exNegA rfl rfl rfl
    (by norm_num) (by norm_num) hr
  rw [ht, show ((3 : ℝ) ^ 2 - 4 * (-1) * 0) = 9 by norm_num, sqrt_nine]
  norm_num

/-- C2 (amended): when the vertical leading coefficient is positive and the
vertical quadratic has a nonnegative real root, `get_time_contact_ground()`
returns the earliest nonnegative root.  (For a negative leading coefficient,
the physical free-fall sign, the counterexample shows the larger of two
nonnegative roots is returned.) -/
theorem c2_amended_earliest_nonneg_root (e : SecondOrderEq) (A B C : ℝ)
    (ha : e.a.z = RVal.fin A) (hb : e.b.z = RVal.fin B)
    (hc : e.c.z = RVal.fin C) (hA : 0 < A)
    (hex : ∃ u : ℝ, 0 ≤ u ∧ A * u ^ 2 + B * u + C = 0) :
    ∃ t : ℝ, e.get_time_contact_ground = RVal.fin t ∧ 0 ≤ t ∧
      A * t ^ 2 + B * t + C = 0 ∧
      ∀ u : ℝ, 0 ≤ u → A * u ^ 2 + B * u + C = 0 → t ≤ u := by
  obtain ⟨u, hu0, hu⟩ := hex
  have hA' : A ≠ 0 := ne_of_gt hA
  have hd : 0 ≤ B ^ 2 - 4 * A * C := by nlinarith [sq_nonneg (2 * A * u + B)]
  have hiff := quad_root_iff hA' hd
  by_cases hr : (-B - Real.sqrt (B ^ 2 - 4 * A * C)) / (2 * A) < 0
  · have ht := SecondOrderEq.get_time_eq_r2 e ha hb hc hA' hd hr
    have hur : u = (-B + Real.sqrt (B ^ 2 - 4 * A * C)) / (2 * A) := by
      rcases (hiff u).mp hu with h | h
      · exfalso; rw [h] at hu0; linarith
      · exact h
    refine ⟨_, ht, ?_, (hiff _).mpr (Or.inr rfl), ?_⟩
    · rw [← hur]; exact hu0
    · intro w hw0 hw
      rcases (hiff w).mp hw with h | h
      · exfalso; rw [h] at hw0; linarith
      · exact ge_of_eq h
  · push_neg at hr
    have ht := SecondOrderEq.get_time_eq_r1 e ha hb hc hA' hd hr
    refine ⟨_, ht, hr, (hiff _).mpr (Or.inl rfl), ?_⟩
    intro w hw0 hw
    rcases (hiff w).mp hw with h | h
    · exact ge_of_eq h
    · rw [h]; exact quad_r1_le_r2 hA

/-- C2 witness: concrete instance with vertical quadratic `t² - 4`. -/
theorem c2_witness :
    ((0 : ℝ) < 1) ∧
    (∃ u : ℝ, 0 ≤ u ∧ 1 * u ^ 2 + 0 * u + (-4) = 0) ∧
    (∃ t : ℝ, exPosA.get_time_contact_ground = RVal.fin t ∧ 0 ≤ t ∧
      1 * t ^ 2 + 0 * t + (-4) = 0 ∧
      ∀ u : ℝ, 0 ≤ u → 1 * u ^ 2 + 0 * u + (-4) = 0 → t ≤ u) :=
  ⟨by norm_num, ⟨2, by norm_num, by norm_num⟩,
    c2_amended_earliest_nonneg_root exPosA 1 0 (-4) rfl rfl rfl (by norm_num)
      ⟨2, by norm_num, by norm_num⟩⟩

/-- C6: for every object with finite vertical data, numeric gravity with
negative vertical component, and initial vertical position strictly above
the vertical collision boundary, `get_time_contact_ground()` on the derived
coefficients returns a finite nonnegative time. -/
theorem c6_time_nonneg_for_downward_gravity (o : Object) (gv : Vec3)
    (gz pz vz cz : ℝ) (hg : o.g = Grav.npArr gv) (hgz : gv.z = RVal.fin gz)
    (hp : o.pos.z = RVal.fin pz) (hv : o.vel.z = RVal.fin vz)
    (hcc : o.collision_condition.z = RVal.fin cz)
    (hneg : gz < 0) (habove : cz < pz)
    (a b c : Vec3) (heq : o.get_eq = some (a, b, c)) :
    ∃ t : ℝ, (SecondOrderEq.mk a b c).get_time_contact_ground = RVal.fin t ∧
      0 ≤ t := by
  have hga : o.get_a = some (Vec3.smul (RVal.fin 0.5) gv) := by
    simp [Object.get_a, hg]
  simp only [Object.get_eq, hga, Object.get_b, Object.get_c,
    Option.map_some', Option.some.injEq, Prod.mk.injEq] at heq
  obtain ⟨ha', hb', hc'⟩ := heq
  subst ha'; subst hb'; subst hc'
  have haz : (Vec3.smul (RVal.fin 0.5) gv).z = RVal.fin (0.5 * gz) := by
    simp [Vec3.smul, hgz]
  have hcz : (Vec3.sub o.pos o.collision_condition).z = RVal.fin (pz - cz) := by
    simp [Vec3.sub, hp, hcc]
  have hprod : (0 : ℝ) < -gz * (pz - cz) :=
    mul_pos (neg_pos.mpr hneg) (sub_pos.mpr habove)
  have hA : (0.5 : ℝ) * gz ≠ 0 := ne_of_lt (by nlinarith)
  have hd : 0 ≤ vz ^ 2 - 4 * (0.5 * gz) * (pz - cz) := by
    nlinarith [sq_nonneg vz]
  have hr : 0 ≤ (-vz - Real.sqrt (vz ^ 2 - 4 * (0.5 * gz) * (pz - cz))) /
      (2 * (0.5 * gz)) := by
    have h1 : |vz| ≤ Real.sqrt (vz ^ 2 - 4 * (0.5 * gz) * (pz - cz)) := by
      rw [← Real.sqrt_sq_eq_abs]
      exact Real.sqrt_le_sqrt (by nlinarith)
    have h2 : -vz ≤ |vz| := neg_le_abs vz
    apply div_nonneg_iff.mpr
    right
    exact ⟨by linarith, by linarith⟩
  exact ⟨_, SecondOrderEq.get_time_eq_r1 _ haz hv hcz hA hd hr, hr⟩

/-- C6 witness: the object dropped from height 10 onto boundary height 1
with gravity `(0, 0, -2)`. -/
theorem c6_witness :
    ((-2 : ℝ) < 0) ∧ ((1 : ℝ) < 10) ∧
    exO.get_eq = some (exA, exB, exC) ∧
    (∃ t : ℝ, (SecondOrderEq.mk exA exB exC).get_time_contact_ground =
      RVal.fin t ∧ 0 ≤ t) :=
  ⟨by norm_num, by norm_num, rfl,
    c6_time_nonneg_for_downward_gravity exO
      ⟨RVal.fin 0, RVal.fin 0, RVal.fin (-2)⟩ (-2) 10 0 1
      rfl rfl rfl rfl rfl (by norm_num) (by norm_num) exA exB exC rfl⟩

/-- C1 counterexample: for the object dropped from height 10 onto boundary
height 1 with gravity `(0, 0, -2)`, `get_distance_at_contact_ground()` has
vertical component 0, while the collision boundary has vertical component
1. -/
theorem c1_counterexample :
    exO.get_eq = some (exA, exB, exC) ∧
    (SecondOrderEq.mk exA exB exC).get_distance_at_contact_ground.z =
      RVal.fin 0 ∧
    exO.collision_condition.z = RVal.fin 1 ∧
    RVal.fin (0 : ℝ) ≠ RVal.fin (1 : ℝ) := by
  refine ⟨rfl, ?_, rfl, by simp⟩
  have haz : exA.z = RVal.fin (-1) := by
    simp [exA, Vec3.smul]; norm_num
  have hbz : exB.z = RVal.fin 0 := rfl
  have hcz : exC.z = RVal.fin 9 := by
    simp [exC, Vec3.sub]; norm_num
  have hr : 0 ≤ (-(0 : ℝ) - Real.sqrt ((0 : ℝ) ^ 2 - 4 * (-1) * 9)) /
      (2 * (-1)) := by
    rw [show ((0 : ℝ) ^ 2 - 4 * (-1) * 9) = 36 by norm_num, sqrt_thirtysix]
    norm_num
  have ht := SecondOrderEq.get_time_eq_r1 (SecondOrderEq.mk exA exB exC)
    haz hbz hcz (by norm_num) (by norm_num) hr
  have ht3 : (SecondOrderEq.mk exA exB exC).get_time_contact_ground =
      RVal.fin 3 := by
    rw [ht, show ((0 : ℝ) ^ 2 - 4 * (-1) * 9) = 36 by norm_num, sqrt_thirtysix]
    norm_num
  have hdist := SecondOrderEq.distance_z (SecondOrderEq.mk exA exB exC)
    haz hbz hcz ht3
  rw [hdist]
  norm_num

/-- C1 (amended): for an object with gravity `(·, ·, -g)`, `g > 0`, whose
vertical quadratic has a real root, the vertical component of
`get_distance_at_contact_ground()` is 0 — the function evaluates
`position - collisionBoundary`, so the reconstructed vertical position at
the returned time equals the boundary's vertical coordinate. -/
theorem c1_amended_distance_is_offset_zero (o : Object) (gv : Vec3)
    (g vz pz cz : ℝ) (hg : o.g = Grav.npArr gv)
    (hgz : gv.z = RVal.fin (-g)) (hgpos : 0 < g)
    (hp : o.pos.z = RVal.fin pz) (hv : o.vel.z = RVal.fin vz)
    (hcc : o.collision_condition.z = RVal.fin cz)
    (a b c : Vec3) (heq : o.get_eq = some (a, b, c))
    (hd : 0 ≤ vz ^ 2 - 4 * (0.5 * -g) * (pz - cz)) :
    ∃ t : ℝ,
      (SecondOrderEq.mk a b c).get_time_contact_ground = RVal.fin t ∧
      (SecondOrderEq.mk a b c).get_distance_at_contact_ground.z =
        RVal.fin 0 ∧
      0.5 * -g * t ^ 2 + vz * t + pz = cz := by
  have hga : o.get_a = some (Vec3.smul (RVal.fin 0.5) gv) := by
    simp [Object.get_a, hg]
  simp only [Object.get_eq, hga, Object.get_b, Object.get_c,
    Option.map_some', Option.some.injEq, Prod.mk.injEq] at heq
  obtain ⟨ha', hb', hc'⟩ := heq
  subst ha'; subst hb'; subst hc'
  have haz : (Vec3.smul (RVal.fin 0.5) gv).z = RVal.fin (0.5 * -g) := by
    simp [Vec3.smul, hgz]
  have hcz' : (Vec3.sub o.pos o.collision_condition).z =
      RVal.fin (pz - cz) := by
    simp [Vec3.sub, hp, hcc]
  have hA : (0.5 : ℝ) * -g ≠ 0 := ne_of_lt (by nlinarith)
  have hiff := quad_root_iff hA hd
  by_cases hr : (-vz - Real.sqrt (vz ^ 2 - 4 * (0.5 * -g) * (pz - cz))) /
      (2 * (0.5 * -g)) < 0
  · have ht := SecondOrderEq.get_time_eq_r2
      (SecondOrderEq.mk (Vec3.smul (RVal.fin 0.5) gv) o.vel
        (Vec3.sub o.pos o.collision_condition)) haz hv hcz' hA hd hr
    have hroot := (hiff ((-vz + Real.sqrt (vz ^ 2 - 4 * (0.5 * -g) *
      (pz - cz))) / (2 * (0.5 * -g)))).mpr (Or.inr rfl)
    have hdist := SecondOrderEq.distance_z
      (SecondOrderEq.mk (Vec3.smul (RVal.fin 0.5) gv) o.vel
        (Vec3.sub o.pos o.collision_condition)) haz hv hcz' ht
    rw [hroot] at hdist
    exact ⟨_, ht, hdist, by linarith⟩
  · push_neg at hr
    have ht := SecondOrderEq.get_time_eq_r1
      (SecondOrderEq.mk (Vec3.smul (RVal.fin 0.5) gv) o.vel
        (Vec3.sub o.pos o.collision_condition)) haz hv hcz' hA hd hr
    have hroot := (hiff ((-vz - Real.sqrt (vz ^ 2 - 4 * (0.5 * -g) *
      (pz - cz))) / (2 * (0.5 * -g)))).mpr (Or.inl rfl)
    have hdist := SecondOrderEq.distance_z
      (SecondOrderEq.mk (Vec3.smul (RVal.fin 0.5) gv) o.vel
        (Vec3.sub o.pos o.collision_condition)) haz hv hcz' ht
    rw [hroot] at hdist
    exact ⟨_, ht, hdist, by linarith⟩

/-- C1 witness: the object dropped from height 10 onto boundary height 1
with gravity `(0, 0, -2)`. -/
theorem c1_witness :
    ((0 : ℝ) < 2) ∧
    exO.get_eq = some (exA, exB, exC) ∧
    (0 ≤ (0 : ℝ) ^ 2 - 4 * (0.5 * -2) * (10 - 1)) ∧
    (∃ t : ℝ,
      (SecondOrderEq.mk exA exB exC).get_time_contact_ground = RVal.fin t ∧
      (SecondOrderEq.mk exA exB exC).get_distance_at_contact_ground.z =
        RVal.fin 0 ∧
      0.5 * -2 * t ^ 2 + 0 * t + 10 = 1) :=
  ⟨by norm_num, rfl, by norm_num,
    c1_amended_distance_is_offset_zero exO
      ⟨RVal.fin 0, RVal.fin 0, RVal.fin (-2)⟩ 2 0 10 1
      rfl rfl (by norm_num) rfl rfl rfl exA exB exC rfl (by norm_num)⟩

end Engine3D
